import Mathlib

/-!
Verification development for the TAWASUL agent ticket store
(`app/tools.py`, `app/followup_worker.py`).

The Python functions are shallowly embedded as executable Lean
definitions.  Strings are Lean `String`s manipulated at the character
level; `time.time()` values are modelled as `Int` timestamps passed in
explicitly; the JSONL files `storage/tickets.jsonl` and
`outbox/emails.jsonl` are modelled as the lists of records they contain,
bundled into a `Store`.  The static `mock_data/users.json` identity
store is modelled as the list of its (already normalized, as cached by
`_load_dummy_users`) email keys.
-/

/-- Minimal JSON value, enough for the `meta` annotation bags the code
builds (`auto_closed`, `auto_escalated`, `source`, `reason`, ...). -/
inductive JVal where
  | null : JVal
  | bool (b : Bool) : JVal
  | num (n : Int) : JVal
  | str (s : String) : JVal
deriving DecidableEq, Repr

/-- One ticket event record, as written by `upsert_ticket_tool` /
`close_last_open_ticket_tool` to `storage/tickets.jsonl`. -/
structure TicketEvent where
  schema : Nat
  type_ : String
  ts : Int
  ticket_id : String
  user_id : String
  message : String
  topic : String
  urgency : String
  department : String
  status : String
  emotion : Option String
  meta : List (String × JVal)
  event : String
deriving DecidableEq, Repr

/-- One outbound email record, as appended by `send_email_tool` to
`outbox/emails.jsonl` (`toAddr` models the JSON key `to`). -/
structure OutboundMessage where
  ts : Int
  toAddr : String
  subject : String
  body : String
  meta : List (String × JVal)
deriving DecidableEq, Repr

/-- The two append-only files the ticket service mutates. -/
structure Store where
  tickets : List TicketEvent
  outbox : List OutboundMessage
deriving DecidableEq, Repr

def SUPPORT_EMAIL : String := "support@tawasul31.com"

/-! ## Character-level string helpers (Python `str` methods) -/

/-- Python `str.strip()` on a character list (ASCII whitespace). -/
def stripChars (cs : List Char) : List Char :=
  ((cs.dropWhile Char.isWhitespace).reverse.dropWhile Char.isWhitespace).reverse

/-- Python `user_id.strip().lower()` — the email normalization used
throughout `tools.py`. -/
def pyNorm (s : String) : String :=
  String.mk ((stripChars s.toList).map Char.toLower)

/-- Python `str.upper()` (used for the escalation subject line). -/
def pyUpper (s : String) : String :=
  String.mk (s.toList.map Char.toUpper)

/-- `status in {"resolved", "closed"}`. -/
def isTerminalStatus (s : String) : Bool :=
  s = "resolved" || s = "closed"

/-! ## Decimal rendering (Python `f"{n:06d}"`) -/

/-- The ASCII digit character for `d < 10`. -/
def digChar (d : Nat) : Char := Char.ofNat (48 + d)

/-- Fuel-driven digit expansion (structural recursion on the fuel so
the kernel can evaluate it); correct whenever `n ≤ fuel`. -/
def natDigitsF : Nat → Nat → List Char
  | 0, n => [digChar n]
  | fuel + 1, n =>
    if n < 10 then [digChar n]
    else natDigitsF fuel (n / 10) ++ [digChar (n % 10)]

/-- Decimal digit characters of a natural number, most significant
first (model of Python decimal formatting of a non-negative int). -/
def natDigits (n : Nat) : List Char := natDigitsF n n

/-- Python `f"{n:0wd}"` for a non-negative int: left-pad the decimal
digits with zeros to width `w`. -/
def padChars (w : Nat) (n : Nat) : List Char :=
  List.replicate (w - (natDigits n).length) '0' ++ natDigits n

/-! ## Python `int(str)` conversion -/

/-- Numeric value of a digit list (most significant first). -/
def digitsVal (cs : List Char) : Nat :=
  cs.foldl (fun a c => a * 10 + (c.toNat - 48)) 0

/-- Tail of a Python int literal after its first digit: digits with
single underscores allowed between digits. -/
def pyDigitsTail : List Char → Bool
  | [] => true
  | [c] => c.isDigit
  | c :: d :: rest =>
    if c.isDigit then pyDigitsTail (d :: rest)
    else if c = '_' then d.isDigit && pyDigitsTail rest
    else false

/-- A nonempty digit run as accepted by Python `int` after the optional
sign: starts with a digit, then digits with single underscores between
digits. -/
def pyDigitsOk : List Char → Bool
  | [] => false
  | c :: rest => c.isDigit && pyDigitsTail rest

/-- Drop the underscores Python `int` ignores. -/
def remUnd (cs : List Char) : List Char := cs.filter (fun c => c != '_')

/-- Sign-and-digits part of Python `int(s)` after whitespace stripping. -/
def pyIntCore : List Char → Option Int
  | [] => none
  | c :: rest =>
    if c = '+' then
      if pyDigitsOk rest then some ((digitsVal (remUnd rest) : Nat) : Int) else none
    else if c = '-' then
      if pyDigitsOk rest then some (-((digitsVal (remUnd rest) : Nat) : Int)) else none
    else
      if pyDigitsOk (c :: rest) then
        some ((digitsVal (remUnd (c :: rest)) : Nat) : Int)
      else none

/-- Model of Python `int(s)` for ASCII strings: surrounding whitespace
is stripped, then an optional sign followed by digits (single
underscores between digits allowed); anything else raises `ValueError`
(here: `none`). -/
def pyIntChars? (cs : List Char) : Option Int :=
  pyIntCore (stripChars cs)

/-! ## Ticket id generation (`_generate_ticket_id`) -/

/-- `tid.startswith("T-")` followed by `int(tid[2:])`; `none` when the
prefix is absent or the suffix fails Python int conversion. -/
def tidNum? (tid : String) : Option Int :=
  match tid.toList with
  | c1 :: c2 :: rest => if c1 = 'T' ∧ c2 = '-' then pyIntChars? rest else none
  | _ => none

/-- `"T-" + f"{k:06d}"`. -/
def mkTid (k : Nat) : String := String.mk ('T' :: '-' :: padChars 6 k)

/-- One loop iteration of `_generate_ticket_id`'s scan:
`if n > max_num: max_num = n` after a successful parse. -/
def tidStep (m : Int) (e : TicketEvent) : Int :=
  match tidNum? e.ticket_id with
  | some n => if m < n then n else m
  | none => m

/-- The `max_num` scan of `_generate_ticket_id`: fold over all events,
keeping the largest parsed `T-` suffix, starting from 0. -/
def maxTidNum (events : List TicketEvent) : Int :=
  events.foldl tidStep 0

/-- `_generate_ticket_id` over an in-memory event list. -/
def generateTicketId (events : List TicketEvent) : String :=
  mkTid (maxTidNum events + 1).toNat

/-- Strict all-digits test (no sign, no underscore, no whitespace). -/
def allDigits (cs : List Char) : Bool :=
  decide (cs ≠ []) && cs.all Char.isDigit

/-- Modelled from the spec's words for comparison with
`generateTicketId`: parses the numeric suffix only of ticket ids
matching the literal `T-<digits>` pattern, ignoring every other id, and
returns `T-` + zero-padded(max+1, 6). -/
def ticketIdGeneratorSpec (events : List TicketEvent) : String :=
  let num? : String → Option Int := fun tid =>
    match tid.toList with
    | c1 :: c2 :: rest =>
      if c1 = 'T' ∧ c2 = '-' ∧ allDigits rest then some ((digitsVal rest : Nat) : Int)
      else none
    | _ => none
  let m := events.foldl
    (fun m e =>
      match num? e.ticket_id with
      | some n => if m < n then n else m
      | none => m)
    0
  mkTid (m + 1).toNat

/-! ## Dict helpers (Python `dict` as an insertion-ordered assoc list) -/

/-- `m.get(k)` on a Python dict modelled as an assoc list (first match;
the dicts built by the code always have unique keys). -/
def alLookup {α : Type} : List (String × α) → String → Option α
  | [], _ => none
  | p :: rest, k => if p.1 = k then some p.2 else alLookup rest k

/-- `m[k] = v`: overwrite in place when the key exists, else append
(Python dicts preserve insertion order). -/
def alSet {α : Type} : List (String × α) → String → α → List (String × α)
  | [], k, v => [(k, v)]
  | p :: rest, k, v => if p.1 = k then (k, v) :: rest else p :: alSet rest k v

/-- `m.get(k)` on a meta dict. -/
def dictLookup (m : List (String × JVal)) (k : String) : Option JVal :=
  alLookup m k

/-- `{**m, k: v}` on a meta dict. -/
def dictSet (m : List (String × JVal)) (k : String) (v : JVal) : List (String × JVal) :=
  alSet m k v

/-! ## Ticket projection folds -/

/-- The `latest_by_ticket` loop body shared by `get_user_profile_tool`
and `_get_open_tickets_by_user`: keep the event with the larger `ts`
per `ticket_id` (first event wins on ties, as `ts > prev.ts` is strict). -/
def latestStep (m : List (String × TicketEvent)) (e : TicketEvent) :
    List (String × TicketEvent) :=
  match alLookup m e.ticket_id with
  | none => alSet m e.ticket_id e
  | some prev => if e.ts > prev.ts then alSet m e.ticket_id e else m

/-- The full `latest_by_ticket` map. -/
def latestByTicket (evs : List TicketEvent) : List (String × TicketEvent) :=
  evs.foldl latestStep []

/-- `max(e.get("ts", 0) for e in user_events)` (callers guard against
the empty list; `0` is returned for it here). -/
def maxTsList : List TicketEvent → Int
  | [] => 0
  | e :: rest => rest.foldl (fun a x => max a x.ts) e.ts

/-- One iteration of the `last_open_record` selection loop of
`close_last_open_ticket_tool`: skip events whose own `status` is
resolved/closed, keep the one with the largest `ts` (first wins ties). -/
def openStep (acc : Option TicketEvent) (rec : TicketEvent) : Option TicketEvent :=
  if isTerminalStatus rec.status then acc
  else
    match acc with
    | none => some rec
    | some cur => if rec.ts > cur.ts then some rec else acc

/-- The `last_open_record` selection of `close_last_open_ticket_tool`. -/
def lastOpenRecord (evs : List TicketEvent) : Option TicketEvent :=
  evs.foldl openStep none

/-- `[e for e in events if str(e.get("user_id","")).strip().lower() == email]`. -/
def userEventsFor (tickets : List TicketEvent) (email : String) : List TicketEvent :=
  tickets.filter (fun e => pyNorm e.user_id = email)

/-! ## `upsert_ticket_tool` -/

/-- The success payload of `upsert_ticket_tool`. -/
structure UpsertResult where
  ticket_id : String
  operation : String
  topic : String
  urgency : String
  department : String
  status : String
  emotion : Option String
  user_email : String
deriving DecidableEq, Repr

/-- Call outcome of `upsert_ticket_tool`: the `unknown_user` failure
dict, the success dict, or a propagated exception (the escalation
`send_email_tool` call is not wrapped in try/except in the source, so
an I/O error there escapes the function). -/
inductive UpsertOutcome where
  | unknownUser : UpsertOutcome
  | ok (r : UpsertResult) : UpsertOutcome
  | raised : UpsertOutcome
deriving DecidableEq, Repr

/-- `upsert_ticket_tool`.  `users` is the identity store's key set,
`now` the value of `time.time()`, `emailOk` whether the outbox append
performed by the nested `send_email_tool` call succeeds (`false` models
an I/O error raised while appending the escalation email; the source
calls `send_email_tool` outside any try/except). -/
def upsertTicket (users : List String) (now : Int) (emailOk : Bool)
    (user_id message topic urgency department status : String)
    (ticket_id : Option String) (emotion : Option String)
    (meta : List (String × JVal)) (st : Store) : UpsertOutcome × Store :=
  let email := pyNorm user_id
  if users.contains email then
    let is_new := ticket_id.isNone
    let tid := match ticket_id with
      | some t => t
      | none => generateTicketId st.tickets
    let record : TicketEvent :=
      { schema := 1, type_ := "ticket_event", ts := now, ticket_id := tid,
        user_id := email, message := message, topic := topic,
        urgency := urgency, department := department, status := status,
        emotion := emotion, meta := meta,
        event := if is_new then "created" else "updated" }
    let st1 : Store := { st with tickets := st.tickets ++ [record] }
    if (urgency = "high" ∨ urgency = "critical") ∧
        ¬(status = "resolved" ∨ status = "closed") then
      if emailOk then
        let subject :=
          "[AgentX] " ++ pyUpper urgency ++ " ticket " ++ tid ++ " for " ++ email
        let emotionStr := match emotion with
          | some s => s
          | none => "None"
        let body :=
          "Ticket ID: " ++ tid ++ "\n" ++ "User: " ++ email ++ "\n" ++
          "Topic: " ++ topic ++ "\n" ++ "Urgency: " ++ urgency ++ "\n" ++
          "Emotion: " ++ emotionStr ++ "\n" ++ "\n" ++
          "Latest message:" ++ "\n" ++ message
        let msg : OutboundMessage :=
          { ts := now, toAddr := SUPPORT_EMAIL, subject := subject, body := body,
            meta := [("auto_escalated", JVal.bool true),
                     ("source", JVal.str "upsert_ticket_tool"),
                     ("operation", JVal.str (if is_new then "created" else "updated"))] }
        let st2 : Store := { st1 with outbox := st1.outbox ++ [msg] }
        (UpsertOutcome.ok
          { ticket_id := tid, operation := if is_new then "created" else "updated",
            topic := topic, urgency := urgency, department := department,
            status := status, emotion := emotion, user_email := email }, st2)
      else
        (UpsertOutcome.raised, st1)
    else
      (UpsertOutcome.ok
        { ticket_id := tid, operation := if is_new then "created" else "updated",
          topic := topic, urgency := urgency, department := department,
          status := status, emotion := emotion, user_email := email }, st1)
  else
    (UpsertOutcome.unknownUser, st)

/-! ## `get_user_profile_tool` -/

/-- The fields of the dict returned by `get_user_profile_tool` that the
claims constrain (the raw `profile` payload and the human-readable
`message`/`reason` strings are summarized by `ok`/`known_user`). -/
structure ProfileResult where
  ok : Bool
  known_user : Bool
  is_new_user : Bool
  has_open_tickets : Bool
  total_tickets : Nat
  open_tickets : Nat
  last_ticket_ts : Option Int
deriving DecidableEq, Repr

/-- `get_user_profile_tool`. -/
def getUserProfile (users : List String) (tickets : List TicketEvent)
    (user_id : String) : ProfileResult :=
  let email := pyNorm user_id
  let user_events := userEventsFor tickets email
  if users.contains email then
    if user_events = [] then
      { ok := true, known_user := true, is_new_user := true,
        has_open_tickets := false, total_tickets := 0, open_tickets := 0,
        last_ticket_ts := none }
    else
      let m := latestByTicket user_events
      let total := m.length
      let opens := (m.map (fun p => p.2)).countP (fun e => !isTerminalStatus e.status)
      { ok := true, known_user := true, is_new_user := decide (total = 0),
        has_open_tickets := decide (opens > 0), total_tickets := total,
        open_tickets := opens, last_ticket_ts := some (maxTsList user_events) }
  else
    { ok := false, known_user := false, is_new_user := true,
      has_open_tickets := false, total_tickets := 0, open_tickets := 0,
      last_ticket_ts := none }

/-! ## `close_last_open_ticket_tool` -/

/-- Call outcome of `close_last_open_ticket_tool` (constructor names
mirror the `reason` strings of the returned failure dicts). -/
inductive CloseOutcome where
  | unknownUser : CloseOutcome
  | noTicketsFile : CloseOutcome
  | noTicketsForUser : CloseOutcome
  | noOpenTicket : CloseOutcome
  | ok (ticket_id : String) (closed_ts : Int) : CloseOutcome
deriving DecidableEq, Repr

/-- `close_last_open_ticket_tool`. -/
def closeLastOpenTicket (users : List String) (now : Int) (user_id : String)
    (st : Store) : CloseOutcome × Store :=
  let email := pyNorm user_id
  if users.contains email then
    if st.tickets = [] then (CloseOutcome.noTicketsFile, st)
    else
      let user_events := userEventsFor st.tickets email
      if user_events = [] then (CloseOutcome.noTicketsForUser, st)
      else
        match lastOpenRecord user_events with
        | none => (CloseOutcome.noOpenTicket, st)
        | some r =>
          let updated : TicketEvent :=
            { schema := 1, type_ := "ticket_event", ts := now,
              ticket_id := r.ticket_id, user_id := email,
              message := "Ticket closed by close_last_open_ticket_tool.",
              topic := r.topic, urgency := r.urgency,
              department := r.department, status := "resolved",
              emotion := r.emotion,
              meta := dictSet r.meta "auto_closed" (JVal.bool true),
              event := "updated" }
          (CloseOutcome.ok r.ticket_id now,
           { st with tickets := st.tickets ++ [updated] })
  else (CloseOutcome.unknownUser, st)

/-! ## Follow-up sweeper (`followup_worker.py`) -/

def THRESHOLD_SECONDS : Int := 24 * 60 * 60

/-- `_get_open_tickets_by_user` without the `user_profile` enrichment:
the attached profile only feeds the LLM-drafted body, which is modelled
by the abstract `draft` argument of `runFollowupOnce`. -/
def getOpenTicketsByUser (tickets : List TicketEvent) : List TicketEvent :=
  if tickets = [] then []
  else
    ((latestByTicket tickets).map (fun p => p.2)).filter
      (fun e => !isTerminalStatus e.status)

/-- `_filter_stale_tickets`. -/
def filterStale (tickets : List TicketEvent) (now : Int) : List TicketEvent :=
  tickets.filter (fun e => now - e.ts ≥ THRESHOLD_SECONDS)

/-- One iteration of the per-stale-ticket loop of `run_followup_once`:
skip invalid emails, otherwise queue the follow-up email via
`send_email_tool` addressed directly to the customer.  `draft`
abstracts the LLM call `_build_followup_email_body` (the body content
is not constrained by the core's contract); the send is modelled as
succeeding (the source wraps each send in try/except, so a failure
would only drop that one message). -/
def followStep (draft : TicketEvent → String) (now : Int) (acc : Store)
    (t : TicketEvent) : Store :=
  let user_email := pyNorm t.user_id
  if user_email = "" ∨ ¬user_email.toList.contains '@' then acc
  else
    { acc with outbox := acc.outbox ++
        [{ ts := now, toAddr := user_email,
           subject := "Checking in about your ticket " ++ t.ticket_id,
           body := draft t,
           meta := [("source", JVal.str "followup_worker"),
                    ("ticket_id", JVal.str t.ticket_id),
                    ("reason", JVal.str "stale_open_ticket")] }] }

/-- `run_followup_once`: load open tickets, filter to stale ones, queue
one follow-up per stale ticket with a valid email; `now` is the
`time.time()` captured at sweep start. -/
def runFollowupOnce (draft : TicketEvent → String) (now : Int) (st : Store) : Store :=
  (filterStale (getOpenTicketsByUser st.tickets) now).foldl (followStep draft now) st

/-! ## `_read_ticket_events` -/

/-- One physical line of `tickets.jsonl`, classified the way the read
loop's control flow does: blank after strip, a line `json.loads`
rejects, or a successfully parsed record. -/
inductive RawLine where
  | blank : RawLine
  | malformed : RawLine
  | record (e : TicketEvent) : RawLine
deriving DecidableEq, Repr

/-- The per-line outcome: `none` for a blank line or a
`json.JSONDecodeError`, `some` for a parsed record. -/
def parseLine : RawLine → Option TicketEvent
  | RawLine.record e => some e
  | _ => none

/-- The accumulator loop of `_read_ticket_events` (`events.append(rec)`). -/
def readLoop : List RawLine → List TicketEvent → List TicketEvent
  | [], acc => acc
  | l :: rest, acc =>
    match parseLine l with
    | none => readLoop rest acc
    | some e => readLoop rest (acc ++ [e])

/-- `_read_ticket_events`: `none` models `tickets.jsonl` not existing. -/
def readTicketEvents : Option (List RawLine) → List TicketEvent
  | none => []
  | some ls => readLoop ls []

/-- Declarative description of a successful read, for comparison with
the loop: every successfully parsed record, in file order. -/
def goodRecords (ls : List RawLine) : List TicketEvent :=
  ls.filterMap parseLine

/-! ## Claim-side (spec-worded) descriptions used for comparison -/

/-- Per-ticket reduction of the `latest_by_ticket` map: fold keeping
the event with the strictly larger `ts` (used to state what the map
holds at one key). -/
def pickLatest (acc : Option TicketEvent) (e : TicketEvent) : Option TicketEvent :=
  match acc with
  | none => some e
  | some p => if e.ts > p.ts then some e else acc

/-- Modelled from the spec's words: ticket `t` counts as open when the
maximum-`ts` event among the user's events for `t` has a status outside
`{resolved, closed}`. -/
def specTicketOpen (ue : List TicketEvent) (t : String) : Bool :=
  ue.any (fun e =>
    e.ticket_id = t &&
    decide (e.ts = maxTsList (ue.filter (fun x => x.ticket_id = t))) &&
    !isTerminalStatus e.status)

/-! ## Lemmas: digits and Python int parsing -/

lemma digChar_isDigit {d : Nat} (h : d < 10) : (digChar d).isDigit = true := by
  interval_cases d <;> decide

lemma digChar_toNat {d : Nat} (h : d < 10) : (digChar d).toNat = 48 + d := by
  interval_cases d <;> decide

lemma digitsVal_append_one (l : List Char) (c : Char) :
    digitsVal (l ++ [c]) = digitsVal l * 10 + (c.toNat - 48) := by
  simp [digitsVal, List.foldl_append]

lemma natDigitsF_spec :
    ∀ fuel n, n ≤ fuel →
      natDigitsF fuel n ≠ [] ∧ (∀ c ∈ natDigitsF fuel n, c.isDigit = true) ∧
      digitsVal (natDigitsF fuel n) = n := by
  intro fuel
  induction fuel with
  | zero =>
    intro n hn
    have h0 : n = 0 := by omega
    subst h0
    refine ⟨by simp [natDigitsF], ?_, by decide⟩
    intro c hc
    simp [natDigitsF] at hc
    subst hc
    decide
  | succ fuel ih =>
    intro n hn
    by_cases h10 : n < 10
    · refine ⟨by simp [natDigitsF, h10], ?_, ?_⟩
      · intro c hc
        simp [natDigitsF, h10] at hc
        subst hc
        exact digChar_isDigit h10
      · simp [natDigitsF, h10, digitsVal, List.foldl, digChar_toNat h10]
    · have hdiv : n / 10 < n := Nat.div_lt_self (by omega) (by omega)
      obtain ⟨hne, hdig, hval⟩ := ih (n / 10) (by omega)
      have hmod : n % 10 < 10 := Nat.mod_lt _ (by omega)
      refine ⟨?_, ?_, ?_⟩
      · simp [natDigitsF, h10]
      · intro c hc
        simp only [natDigitsF, h10, if_false, List.mem_append, List.mem_singleton] at hc
        rcases hc with hc | hc
        · exact hdig c hc
        · subst hc
          exact digChar_isDigit hmod
      · have : natDigitsF (fuel + 1) n = natDigitsF fuel (n / 10) ++ [digChar (n % 10)] := by
          simp [natDigitsF, h10]
        rw [this, digitsVal_append_one, hval, digChar_toNat hmod]
        omega

lemma natDigits_spec (n : Nat) :
    natDigits n ≠ [] ∧ (∀ c ∈ natDigits n, c.isDigit = true) ∧
    digitsVal (natDigits n) = n :=
  natDigitsF_spec n n le_rfl

lemma digit_not_ws {c : Char} (h : c.isDigit = true) : c.isWhitespace = false := by
  by_contra hw
  have hw' : c.isWhitespace = true := by
    cases hcw : c.isWhitespace
    · exact absurd hcw hw
    · rfl
  have hd : ((c = ' ' ∨ c = '\t') ∨ c = '\x0d') ∨ c = '\n' := by
    simpa [Char.isWhitespace, decide_eq_true_eq] using hw'
  rcases hd with ((h1 | h1) | h1) | h1 <;> (subst h1; exact absurd h (by decide))

lemma digit_ne_plus {c : Char} (h : c.isDigit = true) : c ≠ '+' := by
  intro he; subst he; exact absurd h (by decide)

lemma digit_ne_minus {c : Char} (h : c.isDigit = true) : c ≠ '-' := by
  intro he; subst he; exact absurd h (by decide)

lemma digit_ne_und {c : Char} (h : c.isDigit = true) : c ≠ '_' := by
  intro he; subst he; exact absurd h (by decide)

lemma dropWhile_ws_of_digits (l : List Char) (h : ∀ c ∈ l, c.isDigit = true) :
    l.dropWhile Char.isWhitespace = l := by
  cases l with
  | nil => rfl
  | cons c rest =>
    rw [List.dropWhile_cons]
    simp [digit_not_ws (h c (by simp))]

lemma stripChars_of_digits (l : List Char) (h : ∀ c ∈ l, c.isDigit = true) :
    stripChars l = l := by
  unfold stripChars
  rw [dropWhile_ws_of_digits l h]
  rw [dropWhile_ws_of_digits l.reverse (by intro c hc; exact h c (List.mem_reverse.mp hc))]
  exact List.reverse_reverse l

lemma pyDigitsTail_of_digits (l : List Char) (h : ∀ c ∈ l, c.isDigit = true) :
    pyDigitsTail l = true := by
  induction l with
  | nil => rfl
  | cons c rest ih =>
    cases rest with
    | nil => exact h c (by simp)
    | cons d rest2 =>
      have hstep : pyDigitsTail (c :: d :: rest2) =
          if c.isDigit then pyDigitsTail (d :: rest2)
          else if c = '_' then d.isDigit && pyDigitsTail rest2
          else false := rfl
      rw [hstep, if_pos (h c (by simp))]
      exact ih (fun x hx => h x (by simp [hx]))

lemma pyDigitsOk_of_digits (l : List Char) (hne : l ≠ [])
    (h : ∀ c ∈ l, c.isDigit = true) : pyDigitsOk l = true := by
  cases l with
  | nil => exact absurd rfl hne
  | cons c rest =>
    simp only [pyDigitsOk, Bool.and_eq_true]
    exact ⟨h c (by simp), pyDigitsTail_of_digits rest (fun x hx => h x (by simp [hx]))⟩

lemma remUnd_of_digits (l : List Char) (h : ∀ c ∈ l, c.isDigit = true) :
    remUnd l = l := by
  unfold remUnd
  rw [List.filter_eq_self]
  intro c hc
  simpa using digit_ne_und (h c hc)

lemma pyIntChars?_of_digits (l : List Char) (hne : l ≠ [])
    (h : ∀ c ∈ l, c.isDigit = true) :
    pyIntChars? l = some ((digitsVal l : Nat) : Int) := by
  unfold pyIntChars?
  rw [stripChars_of_digits l h]
  cases l with
  | nil => exact absurd rfl hne
  | cons c rest =>
    have hc : c.isDigit = true := h c (by simp)
    have hstep : pyIntCore (c :: rest) =
        if c = '+' then
          if pyDigitsOk rest then some ((digitsVal (remUnd rest) : Nat) : Int) else none
        else if c = '-' then
          if pyDigitsOk rest then some (-((digitsVal (remUnd rest) : Nat) : Int)) else none
        else
          if pyDigitsOk (c :: rest) then
            some ((digitsVal (remUnd (c :: rest)) : Nat) : Int)
          else none := rfl
    rw [hstep, if_neg (digit_ne_plus hc), if_neg (digit_ne_minus hc),
      if_pos (pyDigitsOk_of_digits _ (by simp) h), remUnd_of_digits _ h]

lemma padChars_digits (w k : Nat) : ∀ c ∈ padChars w k, c.isDigit = true := by
  intro c hc
  unfold padChars at hc
  rcases List.mem_append.mp hc with hc | hc
  · have : c = '0' := List.eq_of_mem_replicate hc
    subst this; decide
  · exact (natDigits_spec k).2.1 c hc

lemma padChars_ne_nil (w k : Nat) : padChars w k ≠ [] := by
  unfold padChars
  intro h
  exact (natDigits_spec k).1 (List.append_eq_nil.mp h).2

lemma digitsVal_replicate_zero (m : Nat) :
    List.foldl (fun a c => a * 10 + (c.toNat - 48)) 0 (List.replicate m '0') = 0 := by
  induction m with
  | zero => rfl
  | succ m ih => simpa [List.replicate_succ, List.foldl] using ih

lemma digitsVal_padChars (w k : Nat) : digitsVal (padChars w k) = k := by
  unfold padChars digitsVal
  rw [List.foldl_append, digitsVal_replicate_zero]
  exact (natDigits_spec k).2.2

lemma tidNum?_mkTid (k : Nat) : tidNum? (mkTid k) = some ((k : Nat) : Int) := by
  have h1 : tidNum? (mkTid k) = pyIntChars? (padChars 6 k) := by
    show (if ('T' : Char) = 'T' ∧ ('-' : Char) = '-'
        then pyIntChars? (padChars 6 k) else none) = pyIntChars? (padChars 6 k)
    exact if_pos ⟨rfl, rfl⟩
  rw [h1, pyIntChars?_of_digits _ (padChars_ne_nil 6 k) (padChars_digits 6 k),
    digitsVal_padChars]

/-! ## Lemmas: ticket id generation -/

lemma tidStep_ge (m : Int) (e : TicketEvent) : m ≤ tidStep m e := by
  unfold tidStep
  cases tidNum? e.ticket_id with
  | none => exact le_rfl
  | some n =>
    by_cases h : m < n
    · simp [h]; omega
    · simp [h]

lemma foldl_tidStep_mono (l : List TicketEvent) : ∀ m : Int, m ≤ l.foldl tidStep m := by
  induction l with
  | nil => intro m; exact le_rfl
  | cons e l ih =>
    intro m
    calc m ≤ tidStep m e := tidStep_ge m e
    _ ≤ (e :: l).foldl tidStep m := by rw [List.foldl_cons]; exact ih (tidStep m e)

lemma maxTidNum_nonneg (evs : List TicketEvent) : 0 ≤ maxTidNum evs :=
  foldl_tidStep_mono evs 0

lemma tidNum?_generateTicketId (evs : List TicketEvent) :
    tidNum? (generateTicketId evs) = some (maxTidNum evs + 1) := by
  unfold generateTicketId
  rw [tidNum?_mkTid]
  congr 1
  exact Int.toNat_of_nonneg (by have := maxTidNum_nonneg evs; omega)

lemma maxTidNum_after_generated (evs extra : List TicketEvent) (e : TicketEvent)
    (h : e.ticket_id = generateTicketId evs) :
    maxTidNum evs + 1 ≤ maxTidNum (evs ++ e :: extra) := by
  unfold maxTidNum
  rw [List.foldl_append, List.foldl_cons]
  have hstep : tidStep (List.foldl tidStep 0 evs) e = maxTidNum evs + 1 := by
    unfold tidStep
    rw [h, tidNum?_generateTicketId]
    have : (maxTidNum evs : Int) < maxTidNum evs + 1 := by omega
    show (if maxTidNum evs < maxTidNum evs + 1 then maxTidNum evs + 1
      else maxTidNum evs) = maxTidNum evs + 1
    simp [this]
  rw [hstep]
  exact foldl_tidStep_mono extra _

lemma generateTicketId_inj_num {a b : Int} (ha : 0 ≤ a) (hb : 0 ≤ b)
    (h : mkTid a.toNat = mkTid b.toNat) : a = b := by
  have h1 := tidNum?_mkTid a.toNat
  have h2 := tidNum?_mkTid b.toNat
  rw [h] at h1
  have h3 : ((a.toNat : Nat) : Int) = ((b.toNat : Nat) : Int) :=
    Option.some.inj (h1.symm.trans h2)
  omega

/-! ## Lemmas: the close-latest selection loop -/

lemma openStep_eq_none_iff (acc : Option TicketEvent) (rec : TicketEvent) :
    openStep acc rec = none ↔ acc = none ∧ isTerminalStatus rec.status = true := by
  unfold openStep
  cases hx : isTerminalStatus rec.status with
  | true => simp [hx]
  | false =>
    simp only [hx, Bool.false_eq_true, if_false, and_false, iff_false]
    cases acc with
    | none => simp
    | some cur =>
      by_cases hts : rec.ts > cur.ts <;> simp [hts]

lemma foldl_openStep_none_iff (l : List TicketEvent) :
    ∀ acc : Option TicketEvent,
      l.foldl openStep acc = none ↔
        acc = none ∧ ∀ e ∈ l, isTerminalStatus e.status = true := by
  induction l with
  | nil => intro acc; simp
  | cons e l ih =>
    intro acc
    rw [List.foldl_cons, ih (openStep acc e), openStep_eq_none_iff]
    constructor
    · rintro ⟨⟨hacc, hterm⟩, hall⟩
      refine ⟨hacc, ?_⟩
      intro x hx
      rcases List.mem_cons.mp hx with hxe | hxl
      · subst hxe; exact hterm
      · exact hall x hxl
    · rintro ⟨hacc, hall⟩
      exact ⟨⟨hacc, hall e (by simp)⟩, fun x hx => hall x (by simp [hx])⟩

lemma lastOpenRecord_eq_none_iff (l : List TicketEvent) :
    lastOpenRecord l = none ↔ ∀ e ∈ l, isTerminalStatus e.status = true := by
  unfold lastOpenRecord
  rw [foldl_openStep_none_iff]
  simp

/-! ## Lemmas: assoc-list dict model -/

lemma alLookup_eq_none_iff {α : Type} (m : List (String × α)) (k : String) :
    alLookup m k = none ↔ ∀ p ∈ m, p.1 ≠ k := by
  induction m with
  | nil => simp [alLookup]
  | cons p rest ih =>
    by_cases hp : p.1 = k
    · simp [alLookup, hp]
    · simp [alLookup, hp, ih]

lemma alLookup_isSome_iff {α : Type} (m : List (String × α)) (k : String) :
    (alLookup m k).isSome = true ↔ k ∈ m.map (fun p => p.1) := by
  induction m with
  | nil => simp [alLookup]
  | cons p rest ih =>
    by_cases hp : p.1 = k
    · simp [alLookup, hp]
    · simp [alLookup, hp, ih, Ne.symm hp]

lemma alSet_keys {α : Type} (m : List (String × α)) (k : String) (v : α) :
    (alSet m k v).map (fun p => p.1) =
      if k ∈ m.map (fun p => p.1) then m.map (fun p => p.1)
      else m.map (fun p => p.1) ++ [k] := by
  induction m with
  | nil => simp [alSet]
  | cons p rest ih =>
    by_cases hp : p.1 = k
    · simp [alSet, hp]
    · rw [show alSet (p :: rest) k v = p :: alSet rest k v by simp [alSet, hp]]
      by_cases hk : k ∈ rest.map (fun q => q.1)
      · simp [hk, ih, Ne.symm hp]
      · simp [hk, ih, Ne.symm hp]

lemma alLookup_alSet_self {α : Type} (m : List (String × α)) (k : String) (v : α) :
    alLookup (alSet m k v) k = some v := by
  induction m with
  | nil => simp [alSet, alLookup]
  | cons p rest ih =>
    by_cases hp : p.1 = k
    · simp [alSet, hp, alLookup]
    · simp [alSet, hp, alLookup, ih]

lemma alLookup_alSet_ne {α : Type} (m : List (String × α)) (k t : String) (v : α)
    (h : t ≠ k) : alLookup (alSet m k v) t = alLookup m t := by
  induction m with
  | nil =>
    show (if k = t then some v else alLookup [] t) = alLookup [] t
    rw [if_neg (fun hx => h hx.symm)]
  | cons p rest ih =>
    by_cases hp : p.1 = k
    · rw [show alSet (p :: rest) k v = (k, v) :: rest by simp [alSet, hp]]
      rw [show alLookup ((k, v) :: rest) t = if k = t then some v else alLookup rest t
        from rfl]
      rw [show alLookup (p :: rest) t = if p.1 = t then some p.2 else alLookup rest t
        from rfl]
      rw [if_neg (fun hx => h hx.symm), if_neg (by rw [hp]; exact fun hx => h hx.symm)]
    · rw [show alSet (p :: rest) k v = p :: alSet rest k v by simp [alSet, hp]]
      rw [show alLookup (p :: alSet rest k v) t
          = if p.1 = t then some p.2 else alLookup (alSet rest k v) t from rfl]
      rw [show alLookup (p :: rest) t = if p.1 = t then some p.2 else alLookup rest t
        from rfl]
      rw [ih]

/-! ## Lemmas: the latest-by-ticket projection -/

lemma latestStep_lookup (m : List (String × TicketEvent)) (e : TicketEvent)
    (t : String) :
    alLookup (latestStep m e) t =
      if e.ticket_id = t then pickLatest (alLookup m t) e else alLookup m t := by
  cases hl : alLookup m e.ticket_id with
  | none =>
    have hstep : latestStep m e = alSet m e.ticket_id e := by
      unfold latestStep
      rw [hl]
    rw [hstep]
    by_cases ht : e.ticket_id = t
    · subst ht
      rw [if_pos rfl, alLookup_alSet_self, hl]
      rfl
    · rw [if_neg ht]
      exact alLookup_alSet_ne m e.ticket_id t e (fun hx => ht hx.symm)
  | some prev =>
    have hstep : latestStep m e
        = if e.ts > prev.ts then alSet m e.ticket_id e else m := by
      unfold latestStep
      rw [hl]
    rw [hstep]
    by_cases ht : e.ticket_id = t
    · subst ht
      by_cases hts : e.ts > prev.ts
      · rw [if_pos hts, if_pos rfl, alLookup_alSet_self, hl]
        simp [pickLatest, hts]
      · rw [if_neg hts, if_pos rfl, hl]
        simp [pickLatest, hts]
    · by_cases hts : e.ts > prev.ts
      · rw [if_pos hts, if_neg ht]
        exact alLookup_alSet_ne m e.ticket_id t e (fun hx => ht hx.symm)
      · rw [if_neg hts, if_neg ht]

lemma lookup_foldl_latestStep (evs : List TicketEvent) :
    ∀ (m : List (String × TicketEvent)) (t : String),
      alLookup (evs.foldl latestStep m) t =
        (evs.filter (fun e => e.ticket_id = t)).foldl pickLatest (alLookup m t) := by
  induction evs with
  | nil => intro m t; rfl
  | cons e evs ih =>
    intro m t
    rw [List.foldl_cons, ih (latestStep m e) t, latestStep_lookup]
    by_cases ht : e.ticket_id = t
    · rw [if_pos ht]
      have : (e :: evs).filter (fun x => x.ticket_id = t)
          = e :: evs.filter (fun x => x.ticket_id = t) := by
        simp [List.filter_cons, ht]
      rw [this, List.foldl_cons]
    · rw [if_neg ht]
      have : (e :: evs).filter (fun x => x.ticket_id = t)
          = evs.filter (fun x => x.ticket_id = t) := by
        simp [List.filter_cons, ht]
      rw [this]

lemma alLookup_latestByTicket (evs : List TicketEvent) (t : String) :
    alLookup (latestByTicket evs) t =
      (evs.filter (fun e => e.ticket_id = t)).foldl pickLatest none := by
  unfold latestByTicket
  rw [lookup_foldl_latestStep]
  rfl

lemma latestStep_keys (m : List (String × TicketEvent)) (e : TicketEvent) :
    (latestStep m e).map (fun p => p.1) = m.map (fun p => p.1) ∨
    (latestStep m e).map (fun p => p.1) = m.map (fun p => p.1) ++ [e.ticket_id] := by
  cases hl : alLookup m e.ticket_id with
  | none =>
    have hstep : latestStep m e = alSet m e.ticket_id e := by
      unfold latestStep; rw [hl]
    rw [hstep, alSet_keys]
    have hnot : e.ticket_id ∉ m.map (fun p => p.1) := by
      intro hmem
      have := (alLookup_isSome_iff m e.ticket_id).mpr hmem
      rw [hl] at this
      exact absurd this (by simp)
    rw [if_neg hnot]
    exact Or.inr rfl
  | some prev =>
    have hstep : latestStep m e
        = if e.ts > prev.ts then alSet m e.ticket_id e else m := by
      unfold latestStep; rw [hl]
    have hmem : e.ticket_id ∈ m.map (fun p => p.1) := by
      apply (alLookup_isSome_iff m e.ticket_id).mp
      rw [hl]; rfl
    rw [hstep]
    by_cases hts : e.ts > prev.ts
    · rw [if_pos hts, alSet_keys, if_pos hmem]
      exact Or.inl rfl
    · rw [if_neg hts]
      exact Or.inl rfl

lemma latestStep_keys_nodup (m : List (String × TicketEvent)) (e : TicketEvent)
    (h : (m.map (fun p => p.1)).Nodup) :
    ((latestStep m e).map (fun p => p.1)).Nodup := by
  rcases latestStep_keys m e with hk | hk
  · rw [hk]; exact h
  · rw [hk]
    have hnot : e.ticket_id ∉ m.map (fun p => p.1) := by
      intro hmem
      have h2 : (latestStep m e).map (fun p => p.1) = m.map (fun p => p.1)
          ∨ _ := latestStep_keys m e
      cases hl : alLookup m e.ticket_id with
      | none =>
        have := (alLookup_isSome_iff m e.ticket_id).mpr hmem
        rw [hl] at this
        exact absurd this (by simp)
      | some prev =>
        have hstep : latestStep m e
            = if e.ts > prev.ts then alSet m e.ticket_id e else m := by
          unfold latestStep; rw [hl]
        rw [hstep] at hk
        by_cases hts : e.ts > prev.ts
        · rw [if_pos hts, alSet_keys, if_pos hmem] at hk
          have hlen := congrArg List.length hk
          simp at hlen
        · rw [if_neg hts] at hk
          have hlen := congrArg List.length hk
          simp at hlen
    simp [List.nodup_append, hnot]
    exact h

lemma latestStep_keys_mem (m : List (String × TicketEvent)) (e : TicketEvent)
    (t : String) :
    t ∈ (latestStep m e).map (fun p => p.1) ↔
      t ∈ m.map (fun p => p.1) ∨ t = e.ticket_id := by
  constructor
  · intro h
    rcases latestStep_keys m e with hk | hk
    · rw [hk] at h; exact Or.inl h
    · rw [hk] at h
      rcases List.mem_append.mp h with h | h
      · exact Or.inl h
      · exact Or.inr (by simpa using h)
  · intro h
    have hsome : (alLookup (latestStep m e) t).isSome = true := by
      rw [latestStep_lookup]
      rcases h with h | h
      · by_cases ht : e.ticket_id = t
        · rw [if_pos ht]
          cases alLookup m t <;> simp [pickLatest]
          split <;> simp
        · rw [if_neg ht]
          exact (alLookup_isSome_iff m t).mpr h
      · rw [if_pos h.symm]
        cases alLookup m t <;> simp [pickLatest]
        split <;> simp
    exact (alLookup_isSome_iff _ t).mp hsome

lemma foldl_latestStep_keys_nodup (evs : List TicketEvent) :
    ∀ m, ((m : List (String × TicketEvent)).map (fun p => p.1)).Nodup →
      ((evs.foldl latestStep m).map (fun p => p.1)).Nodup := by
  induction evs with
  | nil => intro m h; exact h
  | cons e evs ih =>
    intro m h
    rw [List.foldl_cons]
    exact ih _ (latestStep_keys_nodup m e h)

lemma foldl_latestStep_keys_mem (evs : List TicketEvent) :
    ∀ m t, (t ∈ (evs.foldl latestStep m).map (fun p => p.1) ↔
      t ∈ m.map (fun p => p.1) ∨ t ∈ evs.map (fun e => e.ticket_id)) := by
  induction evs with
  | nil => intro m t; simp
  | cons e evs ih =>
    intro m t
    rw [List.foldl_cons, ih (latestStep m e) t, latestStep_keys_mem]
    simp [or_assoc, eq_comm]

lemma latestByTicket_keys_nodup (evs : List TicketEvent) :
    ((latestByTicket evs).map (fun p => p.1)).Nodup :=
  foldl_latestStep_keys_nodup evs [] (by simp)

lemma latestByTicket_keys_mem (evs : List TicketEvent) (t : String) :
    t ∈ (latestByTicket evs).map (fun p => p.1) ↔
      t ∈ evs.map (fun e => e.ticket_id) := by
  unfold latestByTicket
  rw [foldl_latestStep_keys_mem]
  simp

lemma pickLatest_isSome (acc : Option TicketEvent) (e : TicketEvent) :
    (pickLatest acc e).isSome = true := by
  cases acc with
  | none => rfl
  | some p =>
    unfold pickLatest
    by_cases h : e.ts > p.ts <;> simp [h]

lemma foldl_pickLatest_isSome (l : List TicketEvent) :
    ∀ acc : Option TicketEvent, acc.isSome = true ∨ l ≠ [] →
      (l.foldl pickLatest acc).isSome = true := by
  induction l with
  | nil =>
    intro acc h
    rcases h with h | h
    · exact h
    · exact absurd rfl h
  | cons e l ih =>
    intro acc _
    rw [List.foldl_cons]
    exact ih (pickLatest acc e) (Or.inl (pickLatest_isSome acc e))

lemma foldl_pickLatest_spec (l : List TicketEvent) :
    ∀ (acc : Option TicketEvent) (r : TicketEvent),
      l.foldl pickLatest acc = some r →
      (r ∈ l ∨ acc = some r) ∧ (∀ x ∈ l, x.ts ≤ r.ts) ∧
        (∀ x, acc = some x → x.ts ≤ r.ts) := by
  induction l with
  | nil =>
    intro acc r h
    have h' : acc = some r := h
    refine ⟨Or.inr h', by simp, ?_⟩
    intro x hx
    rw [h'] at hx
    rw [Option.some.inj hx]
  | cons e l ih =>
    intro acc r h
    rw [List.foldl_cons] at h
    obtain ⟨hmem, hall, hacc⟩ := ih (pickLatest acc e) r h
    have hpick : ∀ y, pickLatest acc e = some y →
        (y = e ∨ acc = some y) ∧ e.ts ≤ y.ts ∧ ∀ x, acc = some x → x.ts ≤ y.ts := by
      intro y hy
      cases acc with
      | none =>
        have : e = y := Option.some.inj hy
        subst this
        exact ⟨Or.inl rfl, le_rfl, by intro x hx; cases hx⟩
      | some a =>
        have hy' : (if e.ts > a.ts then some e else some a) = some y := hy
        by_cases hts : e.ts > a.ts
        · rw [if_pos hts] at hy'
          have : e = y := Option.some.inj hy'
          subst this
          refine ⟨Or.inl rfl, le_rfl, ?_⟩
          intro x hx
          have ha := Option.some.inj hx
          rw [ha] at hts
          omega
        · rw [if_neg hts] at hy'
          have : a = y := Option.some.inj hy'
          subst this
          refine ⟨Or.inr rfl, by omega, ?_⟩
          intro x hx
          rw [Option.some.inj hx]
    have hy : (pickLatest acc e).isSome = true := pickLatest_isSome acc e
    obtain ⟨y, hy⟩ := Option.isSome_iff_exists.mp hy
    obtain ⟨hy1, hy2, hy3⟩ := hpick y hy
    have hyr : y.ts ≤ r.ts := hacc y hy
    refine ⟨?_, ?_, ?_⟩
    · rcases hmem with hm | hm
      · exact Or.inl (by simp [hm])
      · rw [hy] at hm
        have : y = r := Option.some.inj hm
        subst this
        rcases hy1 with h1 | h1
        · exact Or.inl (by simp [h1])
        · exact Or.inr h1
    · intro x hx
      rcases List.mem_cons.mp hx with hxe | hxl
      · subst hxe; omega
      · exact hall x hxl
    · intro x hx
      have := hy3 x hx
      omega

lemma foldl_max_spec (rest : List TicketEvent) :
    ∀ b : Int,
      (rest.foldl (fun a x => max a x.ts) b = b ∨
        ∃ e ∈ rest, e.ts = rest.foldl (fun a x => max a x.ts) b) ∧
      b ≤ rest.foldl (fun a x => max a x.ts) b ∧
      ∀ e ∈ rest, e.ts ≤ rest.foldl (fun a x => max a x.ts) b := by
  induction rest with
  | nil => intro b; exact ⟨Or.inl rfl, le_rfl, by simp⟩
  | cons f rest ih =>
    intro b
    simp only [List.foldl_cons]
    obtain ⟨hm, hb, hub⟩ := ih (max b f.ts)
    refine ⟨?_, ?_, ?_⟩
    · rcases hm with hm | hm
      · rcases le_or_lt f.ts b with hc | hc
        · left
          rw [hm]
          omega
        · right
          exact ⟨f, by simp, by rw [hm]; omega⟩
      · obtain ⟨e, he, hets⟩ := hm
        exact Or.inr ⟨e, by simp [he], hets⟩
    · have h1 : b ≤ max b f.ts := by omega
      omega
    · intro e he
      rcases List.mem_cons.mp he with h1 | h1
      · subst h1
        have h2 : e.ts ≤ max b e.ts := by omega
        omega
      · exact hub e h1

lemma maxTsList_spec (l : List TicketEvent) (hne : l ≠ []) :
    (∃ e ∈ l, e.ts = maxTsList l) ∧ ∀ e ∈ l, e.ts ≤ maxTsList l := by
  cases l with
  | nil => exact absurd rfl hne
  | cons e rest =>
    have heq : maxTsList (e :: rest) = rest.foldl (fun a x => max a x.ts) e.ts := rfl
    obtain ⟨hm, hb, hub⟩ := foldl_max_spec rest e.ts
    rw [heq]
    refine ⟨?_, ?_⟩
    · rcases hm with hm | hm
      · exact ⟨e, by simp, hm.symm⟩
      · obtain ⟨w, hw, hwts⟩ := hm
        exact ⟨w, by simp [hw], hwts⟩
    · intro x hx
      rcases List.mem_cons.mp hx with h1 | h1
      · subst h1; exact hb
      · exact hub x h1

lemma ts_inj_of_nodup_map (l : List TicketEvent)
    (h : (l.map (fun e => e.ts)).Nodup) :
    ∀ x ∈ l, ∀ y ∈ l, x.ts = y.ts → x = y := by
  induction l with
  | nil => simp
  | cons a l ih =>
    rw [List.map_cons, List.nodup_cons] at h
    intro x hx y hy hts
    rcases List.mem_cons.mp hx with hx1 | hx1 <;>
      rcases List.mem_cons.mp hy with hy1 | hy1
    · rw [hx1, hy1]
    · exfalso
      apply h.1
      rw [List.mem_map]
      exact ⟨y, hy1, by rw [← hts, hx1]⟩
    · exfalso
      apply h.1
      rw [List.mem_map]
      exact ⟨x, hx1, by rw [hts, hy1]⟩
    · exact ih h.2 x hx1 y hy1 hts

lemma countP_values_eq_keys (p : TicketEvent → Bool) :
    ∀ m : List (String × TicketEvent), ((m.map (fun q => q.1)).Nodup) →
      (m.map (fun q => q.2)).countP p =
        (m.map (fun q => q.1)).countP
          (fun t => match alLookup m t with
            | some v => p v
            | none => false) := by
  intro m
  induction m with
  | nil => intro _; rfl
  | cons q rest ih =>
    intro hnd
    simp only [List.map_cons] at hnd
    rw [List.nodup_cons] at hnd
    simp only [List.map_cons, List.countP_cons]
    have hq : alLookup (q :: rest) q.1 = some q.2 := by
      show (if q.1 = q.1 then some q.2 else alLookup rest q.1) = some q.2
      rw [if_pos rfl]
    have hrest : (rest.map (fun r => r.1)).countP
        (fun t => match alLookup (q :: rest) t with
          | some v => p v
          | none => false) =
        (rest.map (fun r => r.1)).countP
          (fun t => match alLookup rest t with
            | some v => p v
            | none => false) := by
      apply List.countP_congr
      intro t ht
      have htq : q.1 ≠ t := by
        intro hx
        exact hnd.1 (hx ▸ ht)
      have hal : alLookup (q :: rest) t = alLookup rest t := by
        show (if q.1 = t then some q.2 else alLookup rest t) = alLookup rest t
        rw [if_neg htq]
      rw [hal]
    rw [hrest, ih hnd.2]
    congr 1
    have hmq : (match alLookup (q :: rest) q.1 with
        | some v => p v
        | none => false) = p q.2 := by
      rw [hq]
    rw [hmq]

lemma specTicketOpen_eq_lookup (ue : List TicketEvent) (t : String)
    (hts : (ue.map (fun e => e.ts)).Nodup)
    (hmem : t ∈ ue.map (fun e => e.ticket_id)) :
    (match alLookup (latestByTicket ue) t with
      | some v => !isTerminalStatus v.status
      | none => false) = specTicketOpen ue t := by
  obtain ⟨e0, he0, he0t⟩ := List.mem_map.mp hmem
  have hft : e0 ∈ ue.filter (fun x => x.ticket_id = t) :=
    List.mem_filter.mpr ⟨he0, by simp [he0t]⟩
  have hftne : ue.filter (fun x => x.ticket_id = t) ≠ [] := by
    intro hx
    rw [hx] at hft
    simp at hft
  have hlk := alLookup_latestByTicket ue t
  have hsome := foldl_pickLatest_isSome (ue.filter (fun x => x.ticket_id = t))
    none (Or.inr hftne)
  obtain ⟨estar, hestar⟩ := Option.isSome_iff_exists.mp hsome
  obtain ⟨hm, hub, -⟩ := foldl_pickLatest_spec _ none estar hestar
  have hmem_star : estar ∈ ue.filter (fun x => x.ticket_id = t) := by
    rcases hm with h | h
    · exact h
    · exact absurd h (by simp)
  have hstar_ue : estar ∈ ue := (List.mem_filter.mp hmem_star).1
  have hstar_t : estar.ticket_id = t := by
    have := (List.mem_filter.mp hmem_star).2
    simpa using this
  obtain ⟨⟨w, hw, hwts⟩, hubmax⟩ := maxTsList_spec _ hftne
  have hmax_star : maxTsList (ue.filter (fun x => x.ticket_id = t)) = estar.ts := by
    have h1 : estar.ts ≤ maxTsList (ue.filter (fun x => x.ticket_id = t)) :=
      hubmax estar hmem_star
    have h2 : w.ts ≤ estar.ts := hub w hw
    omega
  have hinj := ts_inj_of_nodup_map ue hts
  rw [hlk, hestar]
  show (!isTerminalStatus estar.status) = specTicketOpen ue t
  cases hterm : isTerminalStatus estar.status with
  | false =>
    have hres : specTicketOpen ue t = true := by
      unfold specTicketOpen
      rw [List.any_eq_true]
      refine ⟨estar, hstar_ue, ?_⟩
      simp [hstar_t, hmax_star, hterm]
    rw [hres]
    rfl
  | true =>
    have hres : specTicketOpen ue t = false := by
      cases hany : specTicketOpen ue t
      · rfl
      · exfalso
        unfold specTicketOpen at hany
        rw [List.any_eq_true] at hany
        obtain ⟨e, he, hprop⟩ := hany
        simp only [Bool.and_eq_true, decide_eq_true_eq, Bool.not_eq_true'] at hprop
        obtain ⟨⟨het, hets⟩, hterm'⟩ := hprop
        have hee : e = estar := by
          apply hinj e he estar hstar_ue
          rw [hets, hmax_star]
        rw [hee] at hterm'
        rw [hterm'] at hterm
        exact absurd hterm (by simp)
    rw [hres]
    rfl

lemma readLoop_eq (ls : List RawLine) :
    ∀ acc, readLoop ls acc = acc ++ goodRecords ls := by
  induction ls with
  | nil => intro acc; simp [readLoop, goodRecords]
  | cons l rest ih =>
    intro acc
    cases l with
    | blank => simp [readLoop, parseLine, goodRecords, List.filterMap_cons, ih]
    | malformed => simp [readLoop, parseLine, goodRecords, List.filterMap_cons, ih]
    | record e => simp [readLoop, parseLine, goodRecords, List.filterMap_cons, ih]

/-! ## Claim theorems -/

/-- C8: `_read_ticket_events` returns every successfully parsed record
in append order (the accumulator loop equals the declarative filter),
skips malformed and blank lines without affecting the rest of the read,
and returns `[]` rather than an error when the log file does not exist. -/
theorem read_ticket_events_total_and_ordered :
    readTicketEvents none = [] ∧
    (∀ ls : List RawLine, readTicketEvents (some ls) = goodRecords ls) ∧
    (∀ pre post : List RawLine,
      goodRecords (pre ++ RawLine.malformed :: post) = goodRecords (pre ++ post) ∧
      goodRecords (pre ++ RawLine.blank :: post) = goodRecords (pre ++ post)) := by
  refine ⟨rfl, ?_, ?_⟩
  · intro ls
    show readLoop ls [] = goodRecords ls
    rw [readLoop_eq]
    simp
  · intro pre post
    constructor <;>
      simp [goodRecords, List.filterMap_append, List.filterMap_cons, parseLine]

/-- C3: `upsert_ticket_tool` with a normalized email absent from the
identity store returns the `unknown_user` failure and leaves both the
ticket event log and the outbox exactly as they were. -/
theorem upsert_unknown_user_no_append (users : List String) (now : Int)
    (emailOk : Bool) (user_id message topic urgency department status : String)
    (ticket_id : Option String) (emotion : Option String)
    (meta : List (String × JVal)) (st : Store)
    (hk : users.contains (pyNorm user_id) = false) :
    upsertTicket users now emailOk user_id message topic urgency department
      status ticket_id emotion meta st = (UpsertOutcome.unknownUser, st) := by
  have hnot : ¬(users.contains (pyNorm user_id) = true) := by
    rw [hk]
    exact Bool.false_ne_true
  simp only [upsertTicket]
  rw [if_neg hnot]

/-- Witness for C3 at a concrete input. -/
theorem upsert_unknown_user_no_append_witness :
    (["a@x.com"].contains (pyNorm "ghost@y.com") = false) ∧
    upsertTicket ["a@x.com"] 100 true "ghost@y.com" "help" "refund" "low"
        "billing" "open" none none [] ⟨[], []⟩
      = (UpsertOutcome.unknownUser, ⟨[], []⟩) :=
  ⟨by decide, upsert_unknown_user_no_append ["a@x.com"] 100 true "ghost@y.com"
    "help" "refund" "low" "billing" "open" none none [] ⟨[], []⟩ (by decide)⟩

/-- C4: for a successful `upsert_ticket_tool` call (known user, outbox
append succeeding), exactly one OutboundMessage is appended in addition
to the single ticket event iff the urgency is high/critical and the
status is not resolved/closed; otherwise the outbox is unchanged. -/
theorem upsert_escalation_exactly_one_iff (users : List String) (now : Int)
    (user_id message topic urgency department status : String)
    (ticket_id : Option String) (emotion : Option String)
    (meta : List (String × JVal)) (st : Store)
    (hk : users.contains (pyNorm user_id) = true) :
    (∃ r, (upsertTicket users now true user_id message topic urgency department
        status ticket_id emotion meta st).1 = UpsertOutcome.ok r) ∧
    (upsertTicket users now true user_id message topic urgency department
        status ticket_id emotion meta st).2.tickets.length
      = st.tickets.length + 1 ∧
    (((urgency = "high" ∨ urgency = "critical") ∧
        ¬(status = "resolved" ∨ status = "closed")) →
      (upsertTicket users now true user_id message topic urgency department
          status ticket_id emotion meta st).2.outbox.length
        = st.outbox.length + 1) ∧
    (¬((urgency = "high" ∨ urgency = "critical") ∧
        ¬(status = "resolved" ∨ status = "closed")) →
      (upsertTicket users now true user_id message topic urgency department
          status ticket_id emotion meta st).2.outbox = st.outbox) := by
  by_cases hesc : (urgency = "high" ∨ urgency = "critical") ∧
      ¬(status = "resolved" ∨ status = "closed")
  · refine ⟨?_, ?_, fun _ => ?_, fun hn => absurd hesc hn⟩
    · simp only [upsertTicket]
      rw [if_pos hk, if_pos hesc, if_pos trivial]
      exact ⟨_, rfl⟩
    · simp only [upsertTicket]
      rw [if_pos hk, if_pos hesc, if_pos trivial]
      simp
    · simp only [upsertTicket]
      rw [if_pos hk, if_pos hesc, if_pos trivial]
      simp
  · refine ⟨?_, ?_, fun hy => absurd hy hesc, fun _ => ?_⟩
    · simp only [upsertTicket]
      rw [if_pos hk, if_neg hesc]
      exact ⟨_, rfl⟩
    · simp only [upsertTicket]
      rw [if_pos hk, if_neg hesc]
      simp
    · simp only [upsertTicket]
      rw [if_pos hk, if_neg hesc]

/-- Witness for C4: urgency critical/status open appends exactly one
message; urgency low appends none. -/
theorem upsert_escalation_exactly_one_iff_witness :
    (["a@x.com"].contains (pyNorm "a@x.com") = true) ∧
    ((upsertTicket ["a@x.com"] 100 true "a@x.com" "help" "refund" "critical"
        "billing" "open" none none [] ⟨[], []⟩).2.outbox.length
      = (Store.mk [] []).outbox.length + 1) ∧
    ((upsertTicket ["a@x.com"] 100 true "a@x.com" "help" "refund" "low"
        "billing" "open" none none [] ⟨[], []⟩).2.outbox
      = (Store.mk [] []).outbox) :=
  ⟨by decide,
    (upsert_escalation_exactly_one_iff ["a@x.com"] 100 "a@x.com" "help" "refund"
      "critical" "billing" "open" none none [] ⟨[], []⟩ (by decide)).2.2.1
      (by decide),
    (upsert_escalation_exactly_one_iff ["a@x.com"] 100 "a@x.com" "help" "refund"
      "low" "billing" "open" none none [] ⟨[], []⟩ (by decide)).2.2.2
      (by decide)⟩

/-- A concrete ticket event used by witnesses and counterexamples. -/
def baseEvent : TicketEvent :=
  { schema := 1, type_ := "ticket_event", ts := 100, ticket_id := "T-000001",
    user_id := "a@x.com", message := "m", topic := "refund", urgency := "low",
    department := "billing", status := "open", emotion := some "neutral",
    meta := [], event := "created" }

/-- C10: `upsert_ticket_tool` performs no enum-membership validation:
for arbitrary `topic`/`urgency`/`department`/`status`/`emotion` strings
the call succeeds once the user check passes, the appended event stores
the values verbatim, and the escalation side effect fires exactly on
the lowercase strings high/critical with a non-terminal status. -/
theorem upsert_accepts_arbitrary_enum_strings (users : List String) (now : Int)
    (user_id message topic urgency department status : String)
    (ticket_id : Option String) (emotion : Option String)
    (meta : List (String × JVal)) (st : Store)
    (hk : users.contains (pyNorm user_id) = true) :
    (∃ r, (upsertTicket users now true user_id message topic urgency department
        status ticket_id emotion meta st).1 = UpsertOutcome.ok r ∧
      r.topic = topic ∧ r.urgency = urgency ∧ r.department = department ∧
      r.status = status ∧ r.emotion = emotion) ∧
    (∃ rec : TicketEvent,
      (upsertTicket users now true user_id message topic urgency department
          status ticket_id emotion meta st).2.tickets = st.tickets ++ [rec] ∧
      rec.topic = topic ∧ rec.urgency = urgency ∧ rec.department = department ∧
      rec.status = status ∧ rec.emotion = emotion ∧ rec.message = message ∧
      rec.meta = meta ∧ rec.user_id = pyNorm user_id) ∧
    ((upsertTicket users now true user_id message topic urgency department
        status ticket_id emotion meta st).2.outbox ≠ st.outbox ↔
      (urgency = "high" ∨ urgency = "critical") ∧
        ¬(status = "resolved" ∨ status = "closed")) := by
  by_cases hesc : (urgency = "high" ∨ urgency = "critical") ∧
      ¬(status = "resolved" ∨ status = "closed")
  · refine ⟨?_, ?_, ?_⟩
    · simp only [upsertTicket]
      rw [if_pos hk, if_pos hesc, if_pos trivial]
      exact ⟨_, rfl, rfl, rfl, rfl, rfl, rfl⟩
    · simp only [upsertTicket]
      rw [if_pos hk, if_pos hesc, if_pos trivial]
      exact ⟨_, rfl, rfl, rfl, rfl, rfl, rfl, rfl, rfl, rfl⟩
    · refine Iff.intro (fun _ => hesc) (fun _ => ?_)
      simp only [upsertTicket]
      rw [if_pos hk, if_pos hesc, if_pos trivial]
      intro hno
      have := congrArg List.length hno
      simp at this
  · refine ⟨?_, ?_, ?_⟩
    · simp only [upsertTicket]
      rw [if_pos hk, if_neg hesc]
      exact ⟨_, rfl, rfl, rfl, rfl, rfl, rfl⟩
    · simp only [upsertTicket]
      rw [if_pos hk, if_neg hesc]
      exact ⟨_, rfl, rfl, rfl, rfl, rfl, rfl, rfl, rfl, rfl⟩
    · constructor
      · intro hne
        exfalso
        apply hne
        simp only [upsertTicket]
        rw [if_pos hk, if_neg hesc]
      · intro hy
        exact absurd hy hesc

/-- Witness for C10: a made-up urgency string is stored verbatim, and
an uppercase "HIGH" does not fire the escalation. -/
theorem upsert_accepts_arbitrary_enum_strings_witness :
    (["a@x.com"].contains (pyNorm "a@x.com") = true) ∧
    ¬((upsertTicket ["a@x.com"] 100 true "a@x.com" "help" "weird_topic" "HIGH"
        "dept9" "strange_status" none (some "zealous") [] ⟨[], []⟩).2.outbox
      ≠ (Store.mk [] []).outbox) :=
  ⟨by decide,
    fun hne =>
      absurd ((upsert_accepts_arbitrary_enum_strings ["a@x.com"] 100 "a@x.com"
        "help" "weird_topic" "HIGH" "dept9" "strange_status" none
        (some "zealous") [] ⟨[], []⟩ (by decide)).2.2.mp hne)
        (by decide)⟩

/-- C2 (amended): when the escalation condition holds and the nested
outbox append raises, the already-appended ticket event is *not* rolled
back, but the call does *not* return the success result: the exception
escapes `upsert_ticket_tool` (no try/except around `send_email_tool`). -/
theorem upsert_escalation_failure_no_rollback (users : List String) (now : Int)
    (user_id message topic urgency department status : String)
    (ticket_id : Option String) (emotion : Option String)
    (meta : List (String × JVal)) (st : Store)
    (hk : users.contains (pyNorm user_id) = true)
    (hesc : (urgency = "high" ∨ urgency = "critical") ∧
      ¬(status = "resolved" ∨ status = "closed")) :
    (upsertTicket users now false user_id message topic urgency department
        status ticket_id emotion meta st).1 = UpsertOutcome.raised ∧
    (∃ rec : TicketEvent,
      (upsertTicket users now false user_id message topic urgency department
          status ticket_id emotion meta st).2.tickets = st.tickets ++ [rec] ∧
      rec.ts = now ∧ rec.topic = topic ∧ rec.urgency = urgency ∧
      rec.department = department ∧ rec.status = status ∧
      rec.message = message ∧ rec.user_id = pyNorm user_id) ∧
    (upsertTicket users now false user_id message topic urgency department
        status ticket_id emotion meta st).2.outbox = st.outbox := by
  refine ⟨?_, ?_, ?_⟩
  · simp only [upsertTicket]
    rw [if_pos hk, if_pos hesc, if_neg Bool.false_ne_true]
  · simp only [upsertTicket]
    rw [if_pos hk, if_pos hesc, if_neg Bool.false_ne_true]
    exact ⟨_, rfl, rfl, rfl, rfl, rfl, rfl, rfl, rfl⟩
  · simp only [upsertTicket]
    rw [if_pos hk, if_pos hesc, if_neg Bool.false_ne_true]

/-- Witness for the amended C2 at a concrete input. -/
theorem upsert_escalation_failure_no_rollback_witness :
    (["a@x.com"].contains (pyNorm "a@x.com") = true) ∧
    ((("critical" : String) = "high" ∨ ("critical" : String) = "critical") ∧
      ¬(("open" : String) = "resolved" ∨ ("open" : String) = "closed")) ∧
    (upsertTicket ["a@x.com"] 100 false "a@x.com" "help" "refund" "critical"
        "billing" "open" none none [] ⟨[], []⟩).1 = UpsertOutcome.raised :=
  ⟨by decide, by decide,
    (upsert_escalation_failure_no_rollback ["a@x.com"] 100 "a@x.com" "help"
      "refund" "critical" "billing" "open" none none [] ⟨[], []⟩
      (by decide) (by decide)).1⟩

/-- C2 counterexample: the claim that the call "still returns the
success result" fails — at this input the ticket event is appended but
the call raises instead of returning the success dict. -/
theorem upsert_escalation_failure_counterexample :
    (upsertTicket ["a@x.com"] 100 false "a@x.com" "help" "refund" "critical"
        "billing" "open" none none [] ⟨[], []⟩).1 = UpsertOutcome.raised ∧
    (upsertTicket ["a@x.com"] 100 false "a@x.com" "help" "refund" "critical"
        "billing" "open" none none [] ⟨[], []⟩).1
      ≠ UpsertOutcome.ok
        { ticket_id := "T-000001", operation := "created", topic := "refund",
          urgency := "critical", department := "billing", status := "open",
          emotion := none, user_email := "a@x.com" } ∧
    (upsertTicket ["a@x.com"] 100 false "a@x.com" "help" "refund" "critical"
        "billing" "open" none none [] ⟨[], []⟩).2.tickets.length = 1 := by
  decide

/-- C5 (amended): the generator parses the `T-` suffix with Python
`int` conversion (so signed/underscored suffixes such as `T-+000050`
are also counted, not only the literal `T-<digits>` pattern); on top of
that the generated numeric suffixes are strictly increasing across
calls — appending the generated event (plus any later events) makes
every later generated id numerically larger, hence ids never repeat. -/
theorem generate_ticket_id_monotonic (evs extra : List TicketEvent)
    (e : TicketEvent) (h : e.ticket_id = generateTicketId evs) :
    maxTidNum evs + 1 < maxTidNum (evs ++ e :: extra) + 1 ∧
    tidNum? (generateTicketId evs) = some (maxTidNum evs + 1) ∧
    tidNum? (generateTicketId (evs ++ e :: extra))
      = some (maxTidNum (evs ++ e :: extra) + 1) ∧
    generateTicketId (evs ++ e :: extra) ≠ generateTicketId evs := by
  have hge := maxTidNum_after_generated evs extra e h
  refine ⟨by omega, tidNum?_generateTicketId evs, tidNum?_generateTicketId _, ?_⟩
  intro heq
  have heq' : mkTid (maxTidNum (evs ++ e :: extra) + 1).toNat
      = mkTid (maxTidNum evs + 1).toNat := heq
  have h1 := maxTidNum_nonneg (evs ++ e :: extra)
  have h2 := maxTidNum_nonneg evs
  have := generateTicketId_inj_num (by omega) (by omega) heq'
  omega

/-- Witness for the amended C5: after a manually inserted `T-000050`
the next generated id is `T-000051`, and appending it forces the
following generated id to differ. -/
theorem generate_ticket_id_monotonic_witness :
    generateTicketId [{ baseEvent with ticket_id := "T-000050" }] = "T-000051" ∧
    ({ baseEvent with ticket_id := "T-000051" } : TicketEvent).ticket_id
      = generateTicketId [{ baseEvent with ticket_id := "T-000050" }] ∧
    generateTicketId ([{ baseEvent with ticket_id := "T-000050" }]
        ++ { baseEvent with ticket_id := "T-000051" } :: [])
      ≠ generateTicketId [{ baseEvent with ticket_id := "T-000050" }] :=
  ⟨by decide, by decide,
    (generate_ticket_id_monotonic [{ baseEvent with ticket_id := "T-000050" }]
      [] { baseEvent with ticket_id := "T-000051" } (by decide)).2.2.2⟩

/-- C5 counterexample: on a log whose only id is `T-+000050` the code
(via Python `int`) counts the signed suffix and generates `T-000051`,
while the claim's `T-<digits>` pattern would ignore it and generate
`T-000001`. -/
theorem generate_ticket_id_pattern_counterexample :
    generateTicketId [{ baseEvent with ticket_id := "T-+000050" }] = "T-000051" ∧
    ticketIdGeneratorSpec [{ baseEvent with ticket_id := "T-+000050" }]
      = "T-000001" ∧
    generateTicketId [{ baseEvent with ticket_id := "T-+000050" }]
      ≠ ticketIdGeneratorSpec [{ baseEvent with ticket_id := "T-+000050" }] := by
  decide

/-- C1 (amended): for a known user with at least one event,
`close_last_open_ticket_tool` returns `no_open_ticket` iff every
*event* of the user (not every ticket) has a terminal status; the
selection filters raw events by their own status, so an open event
whose ticket a later event already resolved can still be picked. -/
theorem close_noOpenTicket_iff_all_events_terminal (users : List String)
    (now : Int) (user_id : String) (st : Store)
    (hk : users.contains (pyNorm user_id) = true)
    (hne : userEventsFor st.tickets (pyNorm user_id) ≠ []) :
    (closeLastOpenTicket users now user_id st).1 = CloseOutcome.noOpenTicket ↔
      ∀ e ∈ userEventsFor st.tickets (pyNorm user_id),
        isTerminalStatus e.status = true := by
  have htne : st.tickets ≠ [] := by
    intro hx
    apply hne
    unfold userEventsFor
    rw [hx]
    rfl
  simp only [closeLastOpenTicket]
  rw [if_pos hk, if_neg htne, if_neg hne]
  cases hsel : lastOpenRecord (userEventsFor st.tickets (pyNorm user_id)) with
  | none =>
    exact Iff.intro
      (fun _ => (lastOpenRecord_eq_none_iff _).mp hsel)
      (fun _ => rfl)
  | some r =>
    constructor
    · intro hcon
      exact CloseOutcome.noConfusion hcon
    · intro hall
      exfalso
      have hnone := (lastOpenRecord_eq_none_iff
        (userEventsFor st.tickets (pyNorm user_id))).mpr hall
      rw [hsel] at hnone
      exact Option.noConfusion hnone

/-- Witness for the amended C1: a user whose only event is already
resolved gets `no_open_ticket`. -/
theorem close_noOpenTicket_iff_witness :
    (["a@x.com"].contains (pyNorm "a@x.com") = true) ∧
    (userEventsFor [{ baseEvent with status := "resolved" }] (pyNorm "a@x.com")
      ≠ []) ∧
    ((closeLastOpenTicket ["a@x.com"] 300 "a@x.com"
        ⟨[{ baseEvent with status := "resolved" }], []⟩).1
        = CloseOutcome.noOpenTicket ↔
      ∀ e ∈ userEventsFor [{ baseEvent with status := "resolved" }]
          (pyNorm "a@x.com"), isTerminalStatus e.status = true) :=
  ⟨by decide, by decide,
    close_noOpenTicket_iff_all_events_terminal ["a@x.com"] 300 "a@x.com"
      ⟨[{ baseEvent with status := "resolved" }], []⟩ (by decide) (by decide)⟩

/-- C1 counterexample: ticket `T-000001` was opened at ts=100 and
resolved at ts=200, so the maximum-ts event of every ticket of the user
is terminal (the per-claim open test is false for the only ticket), yet
`close_last_open_ticket_tool` does not return `no_open_ticket` — it
re-selects the old open event and "closes" the ticket again. -/
theorem close_all_tickets_resolved_counterexample :
    ((userEventsFor [baseEvent,
        { baseEvent with ts := 200, status := "resolved", event := "updated" }]
        "a@x.com").map (fun e => e.ticket_id)).dedup = ["T-000001"] ∧
    specTicketOpen (userEventsFor [baseEvent,
        { baseEvent with ts := 200, status := "resolved", event := "updated" }]
        "a@x.com") "T-000001" = false ∧
    (closeLastOpenTicket ["a@x.com"] 300 "a@x.com"
        ⟨[baseEvent,
          { baseEvent with ts := 200, status := "resolved", event := "updated" }],
         []⟩).1 = CloseOutcome.ok "T-000001" 300 ∧
    (closeLastOpenTicket ["a@x.com"] 300 "a@x.com"
        ⟨[baseEvent,
          { baseEvent with ts := 200, status := "resolved", event := "updated" }],
         []⟩).1 ≠ CloseOutcome.noOpenTicket := by
  decide

/-- C6: a successful `close_last_open_ticket_tool` call appends exactly
one event carrying the same `ticket_id` as the selected record,
status resolved, event updated, the fixed closure note,
`meta.auto_closed = true`, and the topic/urgency/department/emotion of
the record being closed, and it never touches the outbox (no
escalation regardless of the copied urgency). -/
theorem close_success_copies_fields (users : List String) (now : Int)
    (user_id : String) (st : Store) (r : TicketEvent)
    (hk : users.contains (pyNorm user_id) = true)
    (hsel : lastOpenRecord (userEventsFor st.tickets (pyNorm user_id)) = some r) :
    closeLastOpenTicket users now user_id st
      = (CloseOutcome.ok r.ticket_id now,
         { st with tickets := st.tickets ++
            [{ schema := 1, type_ := "ticket_event", ts := now,
               ticket_id := r.ticket_id, user_id := pyNorm user_id,
               message := "Ticket closed by close_last_open_ticket_tool.",
               topic := r.topic, urgency := r.urgency,
               department := r.department, status := "resolved",
               emotion := r.emotion,
               meta := dictSet r.meta "auto_closed" (JVal.bool true),
               event := "updated" }] }) ∧
    dictLookup (dictSet r.meta "auto_closed" (JVal.bool true)) "auto_closed"
      = some (JVal.bool true) ∧
    (closeLastOpenTicket users now user_id st).2.outbox = st.outbox := by
  have hne : userEventsFor st.tickets (pyNorm user_id) ≠ [] := by
    intro hx
    rw [hx] at hsel
    exact Option.noConfusion hsel
  have htne : st.tickets ≠ [] := by
    intro hx
    apply hne
    unfold userEventsFor
    rw [hx]
    rfl
  refine ⟨?_, ?_, ?_⟩
  · simp only [closeLastOpenTicket]
    rw [if_pos hk, if_neg htne, if_neg hne, hsel]
  · exact alLookup_alSet_self r.meta "auto_closed" (JVal.bool true)
  · simp only [closeLastOpenTicket]
    rw [if_pos hk, if_neg htne, if_neg hne, hsel]

/-- Witness for C6 at a concrete input. -/
theorem close_success_copies_fields_witness :
    (["a@x.com"].contains (pyNorm "a@x.com") = true) ∧
    (lastOpenRecord (userEventsFor [baseEvent] (pyNorm "a@x.com"))
      = some baseEvent) ∧
    (closeLastOpenTicket ["a@x.com"] 300 "a@x.com" ⟨[baseEvent], []⟩).2.outbox
      = (Store.mk [baseEvent] []).outbox :=
  ⟨by decide, by decide,
    (close_success_copies_fields ["a@x.com"] 300 "a@x.com" ⟨[baseEvent], []⟩
      baseEvent (by decide) (by decide)).2.2⟩

lemma followStep_skip (draft : TicketEvent → String) (now : Int) (acc : Store)
    (t : TicketEvent) (h : (pyNorm t.user_id).toList.contains '@' = false) :
    followStep draft now acc t = acc := by
  unfold followStep
  rw [if_pos (Or.inr (by rw [h]; exact Bool.false_ne_true))]

lemma followStep_send (draft : TicketEvent → String) (now : Int) (acc : Store)
    (t : TicketEvent) (h : (pyNorm t.user_id).toList.contains '@' = true) :
    followStep draft now acc t
      = { acc with outbox := acc.outbox ++
          [{ ts := now, toAddr := pyNorm t.user_id,
             subject := "Checking in about your ticket " ++ t.ticket_id,
             body := draft t,
             meta := [("source", JVal.str "followup_worker"),
                      ("ticket_id", JVal.str t.ticket_id),
                      ("reason", JVal.str "stale_open_ticket")] }] } := by
  unfold followStep
  have hcond : ¬(pyNorm t.user_id = "" ∨
      ¬(pyNorm t.user_id).toList.contains '@' = true) := by
    rintro (h1 | h1)
    · rw [h1] at h
      exact absurd h (by decide)
    · exact h1 h
  rw [if_neg hcond]

lemma getOpenTicketsByUser_single (e : TicketEvent) :
    getOpenTicketsByUser [e]
      = if isTerminalStatus e.status then [] else [e] := by
  unfold getOpenTicketsByUser
  rw [if_neg (by simp : ¬([e] : List TicketEvent) = [])]
  show ([(e.ticket_id, e)].map (fun p => p.2)).filter
      (fun x => !isTerminalStatus x.status) = _
  cases ht : isTerminalStatus e.status <;> simp [ht]

/-- C9: one sweep pass over a log holding a single ticket event: if its
status is open, it is at least the 24h threshold old and its normalized
email contains `@`, exactly one follow-up OutboundMessage addressed
directly to that email with `meta.reason = "stale_open_ticket"` is
appended; a fresher event or an email without `@` produces no message;
and the sweep never appends ticket events. -/
theorem followup_sweep_single_ticket (e : TicketEvent)
    (draft : TicketEvent → String) (now : Int) (ob : List OutboundMessage) :
    (isTerminalStatus e.status = false →
      THRESHOLD_SECONDS ≤ now - e.ts →
      (pyNorm e.user_id).toList.contains '@' = true →
      runFollowupOnce draft now ⟨[e], ob⟩
        = ⟨[e], ob ++
            [{ ts := now, toAddr := pyNorm e.user_id,
               subject := "Checking in about your ticket " ++ e.ticket_id,
               body := draft e,
               meta := [("source", JVal.str "followup_worker"),
                        ("ticket_id", JVal.str e.ticket_id),
                        ("reason", JVal.str "stale_open_ticket")] }]⟩) ∧
    (now - e.ts < THRESHOLD_SECONDS →
      runFollowupOnce draft now ⟨[e], ob⟩ = ⟨[e], ob⟩) ∧
    ((pyNorm e.user_id).toList.contains '@' = false →
      runFollowupOnce draft now ⟨[e], ob⟩ = ⟨[e], ob⟩) ∧
    (runFollowupOnce draft now ⟨[e], ob⟩).tickets = [e] ∧
    dictLookup [("source", JVal.str "followup_worker"),
        ("ticket_id", JVal.str e.ticket_id),
        ("reason", JVal.str "stale_open_ticket")] "reason"
      = some (JVal.str "stale_open_ticket") := by
  have hrun : runFollowupOnce draft now ⟨[e], ob⟩
      = (filterStale (getOpenTicketsByUser [e]) now).foldl
          (followStep draft now) ⟨[e], ob⟩ := rfl
  have hsweep : ∀ hterm : isTerminalStatus e.status = false,
      ∀ hstale : THRESHOLD_SECONDS ≤ now - e.ts,
      filterStale (getOpenTicketsByUser [e]) now = [e] := by
    intro hterm hstale
    rw [getOpenTicketsByUser_single, hterm]
    unfold filterStale
    simp [hstale]
  refine ⟨?_, ?_, ?_, ?_, by simp [dictLookup, alLookup]⟩
  · intro hterm hstale hat
    rw [hrun, hsweep hterm hstale, List.foldl_cons, List.foldl_nil,
      followStep_send draft now _ e hat]
  · intro hfresh
    have hstale0 : filterStale (getOpenTicketsByUser [e]) now = [] := by
      rw [getOpenTicketsByUser_single]
      cases ht : isTerminalStatus e.status
      · unfold filterStale
        simp only [Bool.false_eq_true, if_false]
        simp [THRESHOLD_SECONDS] at hfresh ⊢
        omega
      · unfold filterStale
        simp
    rw [hrun, hstale0, List.foldl_nil]
  · intro hat
    rw [hrun]
    have hall : ∀ x ∈ filterStale (getOpenTicketsByUser [e]) now, x = e := by
      intro x hx
      have h1 : x ∈ getOpenTicketsByUser [e] := by
        unfold filterStale at hx
        exact (List.mem_filter.mp hx).1
      rw [getOpenTicketsByUser_single] at h1
      cases ht : isTerminalStatus e.status with
      | false =>
        simp [ht] at h1
        exact h1
      | true => simp [ht] at h1
    cases hf : filterStale (getOpenTicketsByUser [e]) now with
    | nil => rfl
    | cons x rest =>
      cases rest with
      | nil =>
        have hx : x = e := hall x (by rw [hf]; simp)
        rw [List.foldl_cons, List.foldl_nil, hx, followStep_skip draft now _ e hat]
      | cons y rest2 =>
        exfalso
        have hsub : filterStale (getOpenTicketsByUser [e]) now
            = x :: y :: rest2 := hf
        have hlen : (filterStale (getOpenTicketsByUser [e]) now).length ≤ 1 := by
          rw [getOpenTicketsByUser_single]
          cases ht : isTerminalStatus e.status
          · unfold filterStale
            simp only [Bool.false_eq_true, if_false]
            exact le_trans (List.length_filter_le _ _) (by simp)
          · unfold filterStale
            simp
        rw [hsub] at hlen
        simp at hlen
  · rw [hrun]
    have hall : ∀ (l : List TicketEvent) (acc : Store),
        (l.foldl (followStep draft now) acc).tickets = acc.tickets := by
      intro l
      induction l with
      | nil => intro acc; rfl
      | cons x rest ih =>
        intro acc
        rw [List.foldl_cons, ih]
        unfold followStep
        by_cases hc : pyNorm x.user_id = "" ∨
            ¬(pyNorm x.user_id).toList.contains '@' = true
        · rw [if_pos hc]
        · rw [if_neg hc]
    exact hall _ _

/-- The concrete stale event used by the C9 witness (an open ticket
event whose `ts` lies 25 hours before the sweep's `now`). -/
def staleEvent : TicketEvent := { baseEvent with ts := 0 }

/-- Witness for C9: a single open ticket event 25 hours old with a
valid email gets exactly one stale follow-up addressed to it. -/
theorem followup_sweep_single_ticket_witness :
    (isTerminalStatus staleEvent.status = false) ∧
    (THRESHOLD_SECONDS ≤ (90000 : Int) - staleEvent.ts) ∧
    ((pyNorm staleEvent.user_id).toList.contains '@' = true) ∧
    runFollowupOnce (fun _ => "b") 90000 ⟨[staleEvent], []⟩
      = ⟨[staleEvent],
         [] ++ [{ ts := 90000,
                  toAddr := pyNorm staleEvent.user_id,
                  subject := "Checking in about your ticket "
                    ++ staleEvent.ticket_id,
                  body := "b",
                  meta := [("source", JVal.str "followup_worker"),
                           ("ticket_id", JVal.str staleEvent.ticket_id),
                           ("reason", JVal.str "stale_open_ticket")] }]⟩ :=
  ⟨by decide, by decide, by decide,
    (followup_sweep_single_ticket staleEvent (fun _ => "b")
      90000 []).1 (by decide) (by decide) (by decide)⟩

/-- C7: for a known user with at least one event and pairwise-distinct
event timestamps, `get_user_profile_tool` reports `total_tickets` equal
to the number of distinct ticket ids among the user's events,
`open_tickets` equal to the number of those tickets whose maximum-ts
event has a status outside resolved/closed, and `last_ticket_ts` equal
to the maximum `ts` across ALL of the user's events. -/
theorem get_user_profile_counts (users : List String)
    (tickets : List TicketEvent) (user_id : String)
    (hk : users.contains (pyNorm user_id) = true)
    (hne : userEventsFor tickets (pyNorm user_id) ≠ [])
    (hts : ((userEventsFor tickets (pyNorm user_id)).map (fun e => e.ts)).Nodup) :
    (getUserProfile users tickets user_id).total_tickets
        = (((userEventsFor tickets (pyNorm user_id)).map
            (fun e => e.ticket_id)).dedup).length ∧
    (getUserProfile users tickets user_id).open_tickets
        = (((userEventsFor tickets (pyNorm user_id)).map
            (fun e => e.ticket_id)).dedup).countP
            (fun t => specTicketOpen (userEventsFor tickets (pyNorm user_id)) t) ∧
    ∃ M, (getUserProfile users tickets user_id).last_ticket_ts = some M ∧
      (∀ e ∈ userEventsFor tickets (pyNorm user_id), e.ts ≤ M) ∧
      ∃ e ∈ userEventsFor tickets (pyNorm user_id), e.ts = M := by
  have hfields :
      (getUserProfile users tickets user_id).total_tickets
        = (latestByTicket (userEventsFor tickets (pyNorm user_id))).length ∧
      (getUserProfile users tickets user_id).open_tickets
        = ((latestByTicket (userEventsFor tickets (pyNorm user_id))).map
            (fun p => p.2)).countP (fun x => !isTerminalStatus x.status) ∧
      (getUserProfile users tickets user_id).last_ticket_ts
        = some (maxTsList (userEventsFor tickets (pyNorm user_id))) := by
    simp only [getUserProfile]
    rw [if_pos hk, if_neg hne]
    exact ⟨rfl, rfl, rfl⟩
  obtain ⟨hf1, hf2, hf3⟩ := hfields
  have hperm : ((latestByTicket (userEventsFor tickets (pyNorm user_id))).map
      (fun p => p.1)).Perm
      (((userEventsFor tickets (pyNorm user_id)).map
        (fun e => e.ticket_id)).dedup) := by
    apply (List.perm_ext_iff_of_nodup
      (latestByTicket_keys_nodup _) (List.nodup_dedup _)).mpr
    intro a
    rw [latestByTicket_keys_mem, List.mem_dedup]
  refine ⟨?_, ?_, ?_⟩
  · rw [hf1, show (latestByTicket (userEventsFor tickets (pyNorm user_id))).length
      = ((latestByTicket (userEventsFor tickets (pyNorm user_id))).map
          (fun p => p.1)).length from (List.length_map _ _).symm]
    exact hperm.length_eq
  · rw [hf2, countP_values_eq_keys _ _ (latestByTicket_keys_nodup _),
      hperm.countP_eq]
    apply List.countP_congr
    intro t ht
    have hmemt : t ∈ (userEventsFor tickets (pyNorm user_id)).map
        (fun e => e.ticket_id) := List.mem_dedup.mp ht
    have hbe := specTicketOpen_eq_lookup
      (userEventsFor tickets (pyNorm user_id)) t hts hmemt
    rw [hbe]
  · refine ⟨maxTsList (userEventsFor tickets (pyNorm user_id)), hf3, ?_, ?_⟩
    · exact (maxTsList_spec _ hne).2
    · exact (maxTsList_spec _ hne).1

/-- Witness for C7: two tickets, one with two events (the later one
resolved), one still open. -/
theorem get_user_profile_counts_witness :
    (["a@x.com"].contains (pyNorm "a@x.com") = true) ∧
    (userEventsFor [baseEvent,
        { baseEvent with ts := 200, status := "resolved", event := "updated" },
        { baseEvent with ts := 300, ticket_id := "T-000002" }]
        (pyNorm "a@x.com") ≠ []) ∧
    (((userEventsFor [baseEvent,
        { baseEvent with ts := 200, status := "resolved", event := "updated" },
        { baseEvent with ts := 300, ticket_id := "T-000002" }]
        (pyNorm "a@x.com")).map (fun e => e.ts)).Nodup) ∧
    ((getUserProfile ["a@x.com"] [baseEvent,
        { baseEvent with ts := 200, status := "resolved", event := "updated" },
        { baseEvent with ts := 300, ticket_id := "T-000002" }]
        "a@x.com").total_tickets
      = (((userEventsFor [baseEvent,
          { baseEvent with ts := 200, status := "resolved", event := "updated" },
          { baseEvent with ts := 300, ticket_id := "T-000002" }]
          (pyNorm "a@x.com")).map (fun e => e.ticket_id)).dedup).length) :=
  ⟨by decide, by decide, by decide,
    (get_user_profile_counts ["a@x.com"] [baseEvent,
      { baseEvent with ts := 200, status := "resolved", event := "updated" },
      { baseEvent with ts := 300, ticket_id := "T-000002" }]
      "a@x.com" (by decide) (by decide) (by decide)).1⟩

